import Mathlib

/-!
Verification of the request-resolution pipeline of the stremio-gemini-addon
repository (src/addon.js). The JavaScript source is shallowly embedded:
pure helpers become Lean functions, the module-level cache becomes explicit
state passing over an association list, and the external collaborators
(Gemini generation calls, TMDB lookups) become function parameters whose
results drive the embedded control flow. `JSON.parse` (a deterministic
platform builtin) is embedded as an executable parser `jsonParse` of the
JSON grammar, with numeric literals kept as their lexemes (the program
never inspects the numeric value of a parsed number).
-/

/-! ## JavaScript string primitives used by the source -/

/-- Model of `needle` occurring as a contiguous substring of a character list,
as used by JavaScript `String.prototype.includes`. -/
def containsSub (needle : List Char) : List Char → Bool
  | [] => needle.isEmpty
  | c :: rest => needle.isPrefixOf (c :: rest) || containsSub needle rest

/-- Model of JavaScript `s.includes(sub)`. -/
def jsIncludes (s sub : String) : Bool :=
  containsSub sub.data s.data

/-- Model of JavaScript `String.prototype.replace` with a global regex of a
literal pattern: replaces every non-overlapping occurrence, left to right.
Fuel-based recursion; any fuel above the input length is enough for the
non-empty patterns the source uses. -/
def replaceAllChars (pat repl : List Char) : Nat → List Char → List Char
  | 0, cs => cs
  | fuel + 1, cs =>
    if pat.isPrefixOf cs ∧ pat ≠ [] then
      repl ++ replaceAllChars pat repl fuel (cs.drop pat.length)
    else
      match cs with
      | [] => []
      | c :: rest => c :: replaceAllChars pat repl fuel rest

/-- Model of JavaScript `s.replace(/pat/g, repl)` for a literal pattern. -/
def replaceAll (s pat repl : String) : String :=
  String.mk (replaceAllChars pat.data repl.data (s.data.length + 1) s.data)

/-- The whitespace set stripped by JavaScript `String.prototype.trim`:
space, tab, line feed, carriage return, vertical tab, form feed,
no-break space, BOM, line separator, paragraph separator. -/
def isJsSpace (c : Char) : Bool :=
  c == ' ' || c == '\t' || c == '\n' || c == '\r' ||
  c == Char.ofNat 11 || c == Char.ofNat 12 || c == Char.ofNat 160 ||
  c == Char.ofNat 65279 || c == Char.ofNat 8232 || c == Char.ofNat 8233

/-- Model of JavaScript `s.trim()`. -/
def jsTrim (s : String) : String :=
  String.mk (((s.data.dropWhile isJsSpace).reverse.dropWhile isJsSpace).reverse)

/-- Model of JavaScript `jsToLower sCase()` on the ASCII range (the only
range the keyword matching and cache keys depend on). -/
def jsToLower (s : String) : String :=
  String.mk (s.data.map (fun c => if 'A' ≤ c ∧ c ≤ 'Z' then Char.ofNat (c.toNat + 32) else c))

/-- Model of JavaScript `s.startsWith(pre)`. -/
def jsStartsWith (s pre : String) : Bool :=
  pre.data.isPrefixOf s.data

/-- The segment of `s` before the first occurrence of `sep` (the whole of
`s` when `sep` does not occur): JavaScript `s.split(sep)[0]` for a
non-empty separator. -/
def splitFirstChars (sep : List Char) : List Char → List Char
  | [] => []
  | c :: rest =>
    if sep.isPrefixOf (c :: rest) ∧ sep ≠ [] then []
    else c :: splitFirstChars sep rest

/-- Model of JavaScript `s.split(sep)[0]` for a non-empty separator. -/
def jsSplitFirst (s sep : String) : String :=
  String.mk (splitFirstChars sep.data s.data)

/-- JavaScript truthiness for an optional string: `undefined`/`null` and the
empty string are falsy, every other string is truthy. -/
def optTruthy : Option String → Bool
  | none => false
  | some s => !(s == "")

/-- Model of JavaScript `a || b` on optional strings (first truthy operand). -/
def jsOr (a b : Option String) : Option String :=
  if optTruthy a then a else b

/-! ## JSON values and a model of `JSON.parse` -/

/-- A JSON value as produced by `JSON.parse`. Numeric literals are kept as
their source lexeme: the program under verification never inspects the
numeric value of a parsed number, only array/object structure and strings. -/
inductive Json where
  | null
  | bool (b : Bool)
  | num (lexeme : String)
  | str (s : String)
  | arr (elems : List Json)
  | obj (fields : List (String × Json))

/-- JSON insignificant whitespace: space, tab, line feed, carriage return. -/
def isJsonWs (c : Char) : Bool :=
  c == ' ' || c == '\t' || c == '\n' || c == '\r'

/-- Skip insignificant JSON whitespace. -/
def skipWs (cs : List Char) : List Char :=
  cs.dropWhile isJsonWs

/-- Value of a hexadecimal digit, if any. -/
def hexDigitVal (c : Char) : Option Nat :=
  if '0' ≤ c ∧ c ≤ '9' then some (c.toNat - '0'.toNat)
  else if 'a' ≤ c ∧ c ≤ 'f' then some (c.toNat - 'a'.toNat + 10)
  else if 'A' ≤ c ∧ c ≤ 'F' then some (c.toNat - 'A'.toNat + 10)
  else none

/-- Decoded character for a single-character JSON string escape. -/
def escChar (c : Char) : Option Char :=
  if c = '"' then some '"'
  else if c = '\\' then some '\\'
  else if c = '/' then some '/'
  else if c = 'b' then some (Char.ofNat 8)
  else if c = 'f' then some (Char.ofNat 12)
  else if c = 'n' then some '\n'
  else if c = 'r' then some '\r'
  else if c = 't' then some '\t'
  else none

/-- Parse the body of a JSON string after the opening quote, returning the
decoded characters and the rest of the input after the closing quote. -/
def parseStrChars : Nat → List Char → Option (List Char × List Char)
  | 0, _ => none
  | _, [] => none
  | fuel + 1, c :: rest =>
    if c = '"' then some ([], rest)
    else if c = '\\' then
      match rest with
      | [] => none
      | e :: rest2 =>
        if e = 'u' then
          match rest2 with
          | h1 :: h2 :: h3 :: h4 :: rest3 =>
            match hexDigitVal h1, hexDigitVal h2, hexDigitVal h3, hexDigitVal h4 with
            | some a, some b, some c2, some d =>
              let code := ((a * 16 + b) * 16 + c2) * 16 + d
              (parseStrChars fuel rest3).map (fun p => (Char.ofNat code :: p.1, p.2))
            | _, _, _, _ => none
          | _ => none
        else
          match escChar e with
          | some ec => (parseStrChars fuel rest2).map (fun p => (ec :: p.1, p.2))
          | none => none
    else if c.toNat < 32 then none
    else (parseStrChars fuel rest).map (fun p => (c :: p.1, p.2))

/-- Take a maximal run of decimal digits. -/
def takeDigits : List Char → List Char × List Char
  | [] => ([], [])
  | c :: rest =>
    if c.isDigit then
      let p := takeDigits rest
      (c :: p.1, p.2)
    else ([], c :: rest)

/-- Parse the optional exponent part of a JSON number onto an accumulated
lexeme. -/
def parseExpPart (acc : List Char) (cs : List Char) : Option (List Char × List Char) :=
  match cs with
  | c :: rest =>
    if c = 'e' ∨ c = 'E' then
      let sr : List Char × List Char :=
        match rest with
        | s :: r2 => if s = '+' ∨ s = '-' then ([s], r2) else ([], rest)
        | [] => ([], [])
      match sr.2 with
      | d :: _ =>
        if d.isDigit then
          let p := takeDigits sr.2
          some (acc ++ c :: sr.1 ++ p.1, p.2)
        else none
      | [] => none
    else some (acc, cs)
  | [] => some (acc, [])

/-- Parse the optional fraction part of a JSON number and then the optional
exponent part. -/
def parseFracPart (acc : List Char) (cs : List Char) : Option (List Char × List Char) :=
  match cs with
  | '.' :: rest =>
    match rest with
    | d :: _ =>
      if d.isDigit then
        let p := takeDigits rest
        parseExpPart (acc ++ '.' :: p.1) p.2
      else none
    | [] => none
  | _ => parseExpPart acc cs

/-- Parse a JSON number lexeme (`-? int frac? exp?`). -/
def parseNumLexeme (cs : List Char) : Option (List Char × List Char) :=
  let nr : List Char × List Char :=
    match cs with
    | '-' :: r => (['-'], r)
    | _ => ([], cs)
  match nr.2 with
  | [] => none
  | c :: rest =>
    if c = '0' then parseFracPart (nr.1 ++ [c]) rest
    else if c.isDigit then
      let p := takeDigits rest
      parseFracPart (nr.1 ++ c :: p.1) p.2
    else none

mutual

/-- Parse one JSON value; fuel decreases on every nested parse. -/
def parseValue : Nat → List Char → Option (Json × List Char)
  | 0, _ => none
  | fuel + 1, cs =>
    match skipWs cs with
    | [] => none
    | c :: rest =>
      if c = 'n' then
        match rest with
        | 'u' :: 'l' :: 'l' :: r => some (Json.null, r)
        | _ => none
      else if c = 't' then
        match rest with
        | 'r' :: 'u' :: 'e' :: r => some (Json.bool true, r)
        | _ => none
      else if c = 'f' then
        match rest with
        | 'a' :: 'l' :: 's' :: 'e' :: r => some (Json.bool false, r)
        | _ => none
      else if c = '"' then
        (parseStrChars (rest.length + 1) rest).map (fun p => (Json.str (String.mk p.1), p.2))
      else if c = '[' then
        match skipWs rest with
        | ']' :: r => some (Json.arr [], r)
        | other => (parseElems fuel other).map (fun p => (Json.arr p.1, p.2))
      else if c = Char.ofNat 123 then
        match skipWs rest with
        | c2 :: r2 =>
          if c2 = Char.ofNat 125 then some (Json.obj [], r2)
          else (parseFields fuel (c2 :: r2)).map (fun p => (Json.obj p.1, p.2))
        | [] => none
      else
        (parseNumLexeme (c :: rest)).map (fun p => (Json.num (String.mk p.1), p.2))

/-- Parse the comma-separated elements of a non-empty JSON array, up to and
including the closing bracket. -/
def parseElems : Nat → List Char → Option (List Json × List Char)
  | 0, _ => none
  | fuel + 1, cs =>
    match parseValue fuel cs with
    | none => none
    | some (v, r) =>
      match skipWs r with
      | ',' :: r2 => (parseElems fuel r2).map (fun p => (v :: p.1, p.2))
      | ']' :: r2 => some ([v], r2)
      | _ => none

/-- Parse the comma-separated members of a non-empty JSON object, up to and
including the closing brace. -/
def parseFields : Nat → List Char → Option (List (String × Json) × List Char)
  | 0, _ => none
  | fuel + 1, cs =>
    match skipWs cs with
    | '"' :: rest =>
      match parseStrChars (rest.length + 1) rest with
      | none => none
      | some (keyChars, r) =>
        match skipWs r with
        | ':' :: r2 =>
          match parseValue fuel r2 with
          | none => none
          | some (v, r3) =>
            match skipWs r3 with
            | ',' :: r4 => (parseFields fuel r4).map (fun p => ((String.mk keyChars, v) :: p.1, p.2))
            | c3 :: r4 => if c3 = Char.ofNat 125 then some ([(String.mk keyChars, v)], r4) else none
            | [] => none
        | _ => none
    | _ => none

end

/-- Model of `JSON.parse`: parse one value and require only whitespace to
remain. Throwing is modelled as `none`. -/
def jsonParse (s : String) : Option Json :=
  match parseValue (2 * s.data.length + 2) s.data with
  | some (v, rest) => if (skipWs rest).isEmpty then some v else none
  | none => none

/-! ## Response Parser — src/addon.js `parseGeminiResponse` (lines 48–56) -/

/-- The cleaning step of `parseGeminiResponse`:
`text.replace(/```json/g, '').replace(/```/g, '').replace(/\n/g, '').trim()`. -/
def cleanedText (text : String) : String :=
  jsTrim (replaceAll (replaceAll (replaceAll text "```json" "") "```" "") "\n" "")

/-- Model of `parseGeminiResponse`: clean, then `JSON.parse`; a decode
failure (the catch branch) yields the empty array. -/
def parseGeminiResponse (text : String) : Json :=
  match jsonParse (cleanedText text) with
  | some v => v
  | none => Json.arr []

/-! ## Suggestion Generator — src/addon.js `generateWithRetry` (lines 227–253) -/

/-- The fixed, ordered model pool (src/addon.js lines 7–39). -/
def MODEL_POOL : List String := [
  "gemini-flash-latest",
  "gemini-flash-lite-latest",
  "gemini-pro-latest",
  "gemini-2.5-flash",
  "gemini-2.5-pro",
  "gemini-2.5-flash-lite",
  "gemini-2.5-flash-image-preview",
  "gemini-2.5-flash-image",
  "gemini-2.5-flash-preview-09-2025",
  "gemini-2.5-flash-lite-preview-09-2025",
  "gemini-3-pro-preview",
  "gemini-3-flash-preview",
  "gemini-2.0-flash-exp",
  "gemini-2.0-flash",
  "gemini-2.0-flash-001",
  "gemini-2.0-flash-lite-001",
  "gemini-2.0-flash-lite",
  "gemini-2.0-flash-lite-preview-02-05",
  "gemini-2.0-flash-lite-preview",
  "gemini-exp-1206",
  "gemini-2.5-flash-preview-tts",
  "gemini-2.5-pro-preview-tts",
  "gemma-3-1b-it",
  "gemma-3-4b-it",
  "gemma-3-12b-it",
  "gemma-3-27b-it",
  "gemma-3n-e4b-it",
  "gemma-3n-e2b-it",
  "gemini-robotics-er-1.5-preview",
  "gemini-2.5-computer-use-preview-10-2025",
  "deep-research-pro-preview-12-2025"]

/-- The system instruction prefixed to every prompt (src/addon.js line 41). -/
def SYSTEM_INSTRUCTION : String :=
  "You are a sophisticated movie critic and database expert. You MUST return valid, raw JSON without Markdown formatting (no ```json blocks). Never explain your choices, just return data."

/-- Outcome of one external generation call
(`model.generateContent` + `response.text()`): the produced text, or a
thrown error carrying its message. -/
inductive GenResult where
  | ok (text : String)
  | err (message : String)

/-- The quota-failure classification of src/addon.js line 240. -/
def isQuotaError (message : String) : Bool :=
  jsIncludes message "429" || jsIncludes message "Quota" || jsIncludes message "Too Many Requests"

/-- Inner loop of `generateWithRetry`: walk the tenant's credential list in
order for a fixed model. Both the quota branch and the generic-error branch
of the source `continue` to the next credential. -/
def tryKeys (callModel : String → String → String → GenResult)
    (modelName prompt : String) : List String → Option String
  | [] => none
  | apiKey :: rest =>
    match callModel modelName apiKey prompt with
    | .ok text => some text
    | .err message =>
      if isQuotaError message then tryKeys callModel modelName prompt rest
      else tryKeys callModel modelName prompt rest

/-- Outer loop of `generateWithRetry`: walk the model pool in order. -/
def tryModels (apiKeys : List String) (callModel : String → String → String → GenResult)
    (prompt : String) : List String → Option String
  | [] => none
  | modelName :: rest =>
    match tryKeys callModel modelName prompt apiKeys with
    | some text => some text
    | none => tryModels apiKeys callModel prompt rest

/-- Model of `generateWithRetry`: nested iteration of the fixed model pool
(outer) and the tenant's credential list (inner); the external generation
call is the parameter `callModel`. Exhaustion returns `none` (JS `null`). -/
def generateWithRetry (apiKeys : List String)
    (callModel : String → String → String → GenResult) (prompt : String) : Option String :=
  tryModels apiKeys callModel prompt MODEL_POOL

/-- The model-major, credential-minor flattening of the fallback pool. -/
def modelKeyPool (apiKeys : List String) : List (String × String) :=
  MODEL_POOL.flatMap (fun m => apiKeys.map (fun k => (m, k)))

/-- The text produced by one (model, credential) attempt, if it succeeded. -/
def genAttempt (callModel : String → String → String → GenResult)
    (prompt : String) (p : String × String) : Option String :=
  match callModel p.1 p.2 prompt with
  | .ok text => some text
  | .err _ => none

/-! ## Tenant Cache — src/addon.js lines 43–46 and 279–291 -/

/-- Source constant `CACHE_TTL = 10 * 60 * 1000` (milliseconds). -/
def CACHE_TTL : Int := 10 * 60 * 1000

/-- A cache entry: `{ timestamp: Date.now(), items: [...] }`. Items are the
parsed JSON suggestion values. -/
structure CacheEntry where
  timestamp : Int
  items : List Json

/-- One tenant's cache partition (a JS `Map` keyed by `"type:query"`),
embedded as an association list with unique keys. -/
abbrev UserCache := List (String × CacheEntry)

/-- Model of `Map.prototype.get` (also covering `has`): first binding of the key. -/
def mapGet : UserCache → String → Option CacheEntry
  | [], _ => none
  | (k, e) :: rest, key => if k = key then some e else mapGet rest key

/-- Model of `Map.prototype.set`: overwrite the key's binding in place, or append. -/
def mapSet : UserCache → String → CacheEntry → UserCache
  | [], key, e => [(key, e)]
  | (k, old) :: rest, key, e =>
    if k = key then (key, e) :: rest else (k, old) :: mapSet rest key e

/-- Model of `Map.prototype.delete`: remove the key's binding. -/
def mapDelete : UserCache → String → UserCache
  | [], _ => []
  | (k, e) :: rest, key => if k = key then mapDelete rest key else (k, e) :: mapDelete rest key

/-- The cache-read logic of the catalog handler (src/addon.js lines 283–291):
a fresh entry yields its items; a stale entry (`now - timestamp ≥ CACHE_TTL`)
is deleted and yields nothing; a missing entry yields nothing. -/
def cacheRead (cache : UserCache) (key : String) (now : Int) : List Json × UserCache :=
  match mapGet cache key with
  | none => ([], cache)
  | some cached =>
    if now - cached.timestamp < CACHE_TTL then (cached.items, cache)
    else ([], mapDelete cache key)

/-! ## Metadata Resolver — src/addon.js `getTmdbItem` (lines 132–188) -/

/-- The fields of one TMDB search result consumed by the source. -/
structure TmdbSearchItem where
  id : Int
  title : Option String
  name : Option String
  poster_path : Option String
  overview : Option String
  release_date : Option String
  first_air_date : Option String
deriving DecidableEq

/-- Used only under a non-emptiness guard, never observed. -/
def defaultSearchItem : TmdbSearchItem :=
  ⟨0, none, none, none, none, none, none⟩

/-- JS test `!searchRes.results || searchRes.results.length === 0`
(the `results` field may be `undefined`). -/
def resEmpty : Option (List TmdbSearchItem) → Bool
  | none => true
  | some l => l.isEmpty

/-- The `results` field, defaulting to no results. -/
def resultsOf : Option (List TmdbSearchItem) → List TmdbSearchItem
  | none => []
  | some l => l

/-- Source expression `item.poster_path ? "https://image.tmdb.org/t/p/w500" + p : null`. -/
def posterUrl (p : Option String) : Option String :=
  if optTruthy p then some ("https://image.tmdb.org/t/p/w500" ++ p.getD "") else none

/-- First component of `d.split('-')`. -/
def yearOfDate (d : String) : String :=
  jsSplitFirst d "-"

/-- The record a catalog-page resolution produces
(the object literals at src/addon.js lines 152–160 and 174–182). -/
structure MetaLite where
  id : String
  type : String
  name : Option String
  poster : Option String
  description : Option String
  releaseInfo : Option String
  tmdbId : Int
deriving DecidableEq

/-- Continuation of the movie branch of `getTmdbItem` after a search hit:
fetch external ids, require a truthy `imdb_id`, build the record. -/
def movieFromSearch (movieExternalIds : Int → Except String (Option String))
    (year : Option String) (item : TmdbSearchItem) : Except String (Option MetaLite) :=
  match movieExternalIds item.id with
  | .error e => .error e
  | .ok imdb =>
    if optTruthy imdb then
      .ok (some {
        id := imdb.getD ""
        type := "movie"
        name := item.title
        poster := posterUrl item.poster_path
        description := item.overview
        releaseInfo :=
          if optTruthy item.release_date then some (yearOfDate (item.release_date.getD ""))
          else year
        tmdbId := item.id })
    else .ok none

/-- Continuation of the series branch of `getTmdbItem` after a search hit. -/
def seriesFromSearch (tvExternalIds : Int → Except String (Option String))
    (year : Option String) (item : TmdbSearchItem) : Except String (Option MetaLite) :=
  match tvExternalIds item.id with
  | .error e => .error e
  | .ok imdb =>
    if optTruthy imdb then
      .ok (some {
        id := imdb.getD ""
        type := "series"
        name := item.name
        poster := posterUrl item.poster_path
        description := item.overview
        releaseInfo :=
          if optTruthy item.first_air_date then some (yearOfDate (item.first_air_date.getD ""))
          else year
        tmdbId := item.id })
    else .ok none

/-- Model of `getTmdbItem`. External TMDB calls are the four function
parameters; a thrown provider fault is an `Except.error`, and the source's
surrounding try/catch maps any fault to `null`. For movies the first search
carries `safeYear` (`year ? year.toString().substring(0, 4) : undefined`)
and an empty result triggers one retry without the year; the TV search
takes no year and is not retried. -/
def getTmdbItem
    (searchMovie : String → Option String → Except String (Option (List TmdbSearchItem)))
    (searchTv : String → Except String (Option (List TmdbSearchItem)))
    (movieExternalIds : Int → Except String (Option String))
    (tvExternalIds : Int → Except String (Option String))
    (title : String) (year : Option String) (type : String) : Option MetaLite :=
  let comp : Except String (Option MetaLite) :=
    if type = "movie" then
      let safeYear : Option String :=
        match year with
        | some y => if y = "" then none else some (y.take 4)
        | none => none
      match searchMovie title safeYear with
      | .error e => .error e
      | .ok first =>
        if resEmpty first then
          match searchMovie title none with
          | .error e => .error e
          | .ok second =>
            if resEmpty second then .ok none
            else movieFromSearch movieExternalIds year ((resultsOf second).headD defaultSearchItem)
        else movieFromSearch movieExternalIds year ((resultsOf first).headD defaultSearchItem)
    else
      match searchTv title with
      | .error e => .error e
      | .ok res =>
        if resEmpty res then .ok none
        else seriesFromSearch tvExternalIds year ((resultsOf res).headD defaultSearchItem)
  match comp with
  | .ok v => v
  | .error _ => none

/-! ## Detail resolution — src/addon.js `getTmdbMeta` (190–225) and the meta
handler (329–338) -/

/-- The result of `tmdb.find`; only the ids of `movie_results` and
`tv_results` are consumed by the source. -/
structure FindResults where
  movie_results : List Int
  tv_results : List Int
deriving DecidableEq

/-- The fields of a `movieInfo`/`tvInfo` response consumed by the source.
`genres` stands for the `name` fields of `item.genres`; `creditsCastNames`
for the `name` fields of `item.credits?.cast` (absent when `credits` is). -/
structure InfoItem where
  title : Option String
  name : Option String
  overview : Option String
  poster_path : Option String
  backdrop_path : Option String
  release_date : Option String
  first_air_date : Option String
  genres : Option (List String)
  creditsCastNames : Option (List String)
  vote_average : Option Rat
deriving DecidableEq

/-- JS truthiness of an optional number: `undefined`, `null` and `0` are
falsy. -/
def ratTruthy : Option Rat → Bool
  | none => false
  | some q => !(q == 0)

/-- Model of `Number.prototype.toFixed(1)` on the non-negative rationals the
source applies it to: round to one decimal, ties toward the larger value. -/
def toFixed1 (q : Rat) : String :=
  let n : Int := Rat.floor (q * 10 + 1 / 2)
  toString (n / 10) ++ "." ++ toString (n % 10)

/-- Source expression `item.backdrop_path ? "https://image.tmdb.org/t/p/original" + p : null`. -/
def backdropUrl (p : Option String) : Option String :=
  if optTruthy p then some ("https://image.tmdb.org/t/p/original" ++ p.getD "") else none

/-- The record detail resolution returns (src/addon.js lines 209–220). -/
structure MetaFull where
  id : String
  type : String
  name : Option String
  poster : Option String
  background : Option String
  description : Option String
  releaseInfo : String
  genres : List String
  cast : List String
  imdbRating : Option String
deriving DecidableEq

/-- The object literal of `getTmdbMeta` (src/addon.js lines 205–220). -/
def buildMetaFull (type imdbId : String) (item : InfoItem) : MetaFull :=
  { id := imdbId
    type := type
    name := jsOr item.title item.name
    poster := posterUrl item.poster_path
    background := backdropUrl item.backdrop_path
    description := item.overview
    releaseInfo := yearOfDate ((jsOr item.release_date item.first_air_date).getD "")
    genres := item.genres.getD []
    cast := (item.creditsCastNames.getD []).take 10
    imdbRating :=
      if ratTruthy item.vote_average then some (toFixed1 (item.vote_average.getD 0))
      else none }

/-- Model of `getTmdbMeta`. The whole body sits in a try/catch whose catch
returns `null`, so every provider fault (an `Except.error` from `find`,
`movieInfo` or `tvInfo`) collapses to `none`. -/
def getTmdbMeta
    (find : String → Except String FindResults)
    (movieInfo : Int → Except String InfoItem)
    (tvInfo : Int → Except String InfoItem)
    (type imdbId : String) : Option MetaFull :=
  let comp : Except String (Option MetaFull) :=
    match find imdbId with
    | .error e => .error e
    | .ok findRes =>
      if type = "movie" && findRes.movie_results.length > 0 then
        match movieInfo (findRes.movie_results.headD 0) with
        | .error e => .error e
        | .ok item => .ok (some (buildMetaFull type imdbId item))
      else if type = "series" && findRes.tv_results.length > 0 then
        match tvInfo (findRes.tv_results.headD 0) with
        | .error e => .error e
        | .ok item => .ok (some (buildMetaFull type imdbId item))
      else .ok none
  match comp with
  | .ok v => v
  | .error _ => none

/-- Model of the meta handler (src/addon.js lines 329–338): identifiers not
starting with `tt` yield `{ meta: null }`; otherwise `getTmdbMeta` runs.
The handler's own try/catch would rethrow an escaping fault, but
`getTmdbMeta` is total (it catches internally), so the handler always
returns `.ok`. -/
def metaHandler
    (find : String → Except String FindResults)
    (movieInfo : Int → Except String InfoItem)
    (tvInfo : Int → Except String InfoItem)
    (type idArg : String) : Except String (Option MetaFull) :=
  if !(jsStartsWith idArg "tt") then .ok none
  else .ok (getTmdbMeta find movieInfo tvInfo type idArg)

/-! ## Pipeline Orchestrator — src/addon.js catalog handler (lines 257–327) -/

/-- Source constant `const PAGE_SIZE = 20`. -/
def PAGE_SIZE : Int := 20

/-- Model of JavaScript `Array.prototype.slice(s, e)`. -/
def jsSlice {α : Type} (xs : List α) (s e : Int) : List α :=
  let len : Int := xs.length
  let k := if s < 0 then max (len + s) 0 else min s len
  let fin := if e < 0 then max (len + e) 0 else min e len
  (xs.take fin.toNat).drop k.toNat

/-- Source constant `movieKeywords = ['movie', 'film', 'cinema']`. -/
def movieKeywords : List String := ["movie", "film", "cinema"]

/-- Source constant `seriesKeywords = ['series', 'show', 'tv', 'season', 'episode']`. -/
def seriesKeywords : List String := ["series", "show", "tv", "season", "episode"]

/-- Source expression `movieKeywords.some(w => query.includes(w))`. -/
def wantsMoviesFor (query : String) : Bool :=
  movieKeywords.any (fun w => jsIncludes query w)

/-- Source expression `seriesKeywords.some(w => query.includes(w))`. -/
def wantsSeriesFor (query : String) : Bool :=
  seriesKeywords.any (fun w => jsIncludes query w)

/-- The cache key `` `${type}:${query}` ``. -/
def cacheKeyOf (type query : String) : String :=
  type ++ ":" ++ query

/-- The prompt template literal of src/addon.js lines 295–302, applied to
`itemLabel` and the (suffix-stripped, original-case) search text. -/
def buildPrompt (itemLabel search : String) : String :=
  SYSTEM_INSTRUCTION ++ " \n            The user is searching for **" ++ itemLabel ++
  "**. Use the query \"" ++ search ++ "\" as a semantic guide.\n            If it is a mood (e.g., 'sad sci-fi'), find " ++
  itemLabel ++ " that match the atmosphere. \n            If it is a plot description, find the closest matches. \n            Provide a comprehensive list of **20** recommendations. Prioritize relevance but ensure variety.\n            Return a strictly valid JSON array of objects with \"title\" and \"year\".\n            Limit to 20 items.\n            Example: [\x7b\"title\": \"Interstellar\", \"year\": \"2014\"\x7d]"

/-- The fan-out of src/addon.js lines 320–324: one resolution per page item
(`Promise.all` keeps input order), then `filter(m => m !== null)`.
`getItem item type` stands for `getTmdbItem(item.title, item.year, type)`
with the TMDB collaborator folded in. -/
def resolvePage (getItem : Json → String → Option MetaLite) (type : String)
    (pageItems : List Json) : List MetaLite :=
  (pageItems.map (fun item => getItem item type)).filterMap id

/-- The cache-miss branch of the catalog handler (src/addon.js lines
293–313): generate, parse, and cache the parsed array only when it is a
non-empty array; `none` stands for the early `return { metas: [] }`. -/
def regenerate (apiKeys : List String) (callModel : String → String → String → GenResult)
    (itemLabel cleanQuery cacheKey : String) (putNow : Int) (cache1 : UserCache) :
    Option (List Json × UserCache) :=
  match generateWithRetry apiKeys callModel (buildPrompt itemLabel cleanQuery) with
  | none => none
  | some text =>
    match parseGeminiResponse text with
    | Json.arr suggestions =>
      if suggestions.length = 0 then none
      else some (suggestions, mapSet cache1 cacheKey ⟨putNow, suggestions⟩)
    | _ => none

/-- The catalog handler's result shape `{ metas: [...] }`. -/
structure CatalogResp where
  metas : List MetaLite
deriving DecidableEq

/-- The catalog handler from the cache lookup onward (src/addon.js lines
279–326): read the cache, regenerate when the read yielded nothing,
paginate with `slice(skip, skip + PAGE_SIZE)` after the
`skip >= cachedList.length` early return, and fan out metadata resolution
over the page. `now` is the clock at the TTL check, `putNow` at the write. -/
def catalogPipeline (apiKeys : List String)
    (callModel : String → String → String → GenResult)
    (getItem : Json → String → Option MetaLite)
    (now putNow : Int) (cache : UserCache)
    (type cleanQuery : String) (skip : Int) : CatalogResp × UserCache :=
  let query := jsToLower cleanQuery
  let itemLabel := if type = "movie" then "movies" else "TV shows"
  let cacheKey := cacheKeyOf type query
  let rd := cacheRead cache cacheKey now
  let afterGen : Option (List Json × UserCache) :=
    if rd.1.length = 0 then
      regenerate apiKeys callModel itemLabel cleanQuery cacheKey putNow rd.2
    else some rd
  match afterGen with
  | none => (⟨[]⟩, rd.2)
  | some (list, cache2) =>
    if skip ≥ (list.length : Int) then (⟨[]⟩, cache2)
    else
      let metas := resolvePage getItem type (jsSlice list skip (skip + PAGE_SIZE))
      if metas.length = 0 then (⟨[]⟩, cache2) else (⟨metas⟩, cache2)

/-- Model of the full catalog handler (src/addon.js lines 257–327): reject a
missing (or empty, hence falsy) search term with the thrown
`'No search query provided'`; strip a trailing `.json` protocol suffix;
apply the intent filter on the lower-cased query, short-circuiting a
media type the query excludes; then run the cache/generate/paginate
pipeline. `skipExtra` is `parseInt(extra.skip)` when `extra.skip` is
supplied. -/
def catalogHandler (apiKeys : List String)
    (callModel : String → String → String → GenResult)
    (getItem : Json → String → Option MetaLite)
    (now putNow : Int) (cache : UserCache)
    (type : String) (search : Option String) (skipExtra : Option Int) :
    Except String (CatalogResp × UserCache) :=
  if optTruthy search = false then .error "No search query provided"
  else
    let s := search.getD ""
    let cleanQuery := if jsIncludes s ".json" then jsSplitFirst s ".json" else s
    let query := jsToLower cleanQuery
    let skip := skipExtra.getD 0
    if wantsMoviesFor query && !wantsSeriesFor query && type == "series" then .ok (⟨[]⟩, cache)
    else if wantsSeriesFor query && !wantsMoviesFor query && type == "movie" then .ok (⟨[]⟩, cache)
    else .ok (catalogPipeline apiKeys callModel getItem now putNow cache type cleanQuery skip)

/-- JS test `Array.isArray(suggestions) && suggestions.length !== 0`. -/
def isNonEmptyArr : Json → Bool
  | .arr (_ :: _) => true
  | _ => false

/-- JS test `Array.isArray(v)`. -/
def Json.isArr : Json → Bool
  | .arr _ => true
  | _ => false

/-! ## Theorems -/

theorem tryKeys_eq_findSome (callModel : String → String → String → GenResult)
    (modelName prompt : String) (keys : List String) :
    tryKeys callModel modelName prompt keys =
      (keys.map (fun k => (modelName, k))).findSome? (genAttempt callModel prompt) := by
  induction keys with
  | nil => rfl
  | cons k ks ih =>
    simp only [tryKeys, List.map_cons, List.findSome?_cons]
    cases h : callModel modelName k prompt with
    | ok t => simp [genAttempt, h]
    | err m => simp [genAttempt, h, ih, ite_self]

theorem tryModels_eq_findSome (apiKeys : List String)
    (callModel : String → String → String → GenResult) (prompt : String)
    (models : List String) :
    tryModels apiKeys callModel prompt models =
      (models.flatMap (fun m => apiKeys.map (fun k => (m, k)))).findSome?
        (genAttempt callModel prompt) := by
  induction models with
  | nil => rfl
  | cons m ms ih =>
    simp only [tryModels, List.flatMap_cons, List.findSome?_append]
    rw [tryKeys_eq_findSome, ih]
    cases h : (List.map (fun k => (m, k)) apiKeys).findSome? (genAttempt callModel prompt) with
    | none => simp [h]
    | some t => simp [h]

/-- C1: `generateWithRetry` walks the fixed model pool in order and, within
each model, the tenant's credential list in order (model-major,
credential-minor), returning the text of the first successful generation
call; every failing call (quota or otherwise) is skipped without surfacing
an error, and `none` (JS `null`) is returned exactly when every
(model, credential) pair in the Cartesian pool failed. -/
theorem generateWithRetry_pool_order (apiKeys : List String)
    (callModel : String → String → String → GenResult) (prompt : String) :
    generateWithRetry apiKeys callModel prompt =
      (modelKeyPool apiKeys).findSome? (genAttempt callModel prompt) ∧
    (generateWithRetry apiKeys callModel prompt = none ↔
      ∀ p ∈ modelKeyPool apiKeys, genAttempt callModel prompt p = none) := by
  have h : generateWithRetry apiKeys callModel prompt =
      (modelKeyPool apiKeys).findSome? (genAttempt callModel prompt) := by
    unfold generateWithRetry modelKeyPool
    exact tryModels_eq_findSome apiKeys callModel prompt MODEL_POOL
  refine ⟨h, ?_⟩
  rw [h]
  exact List.findSome?_eq_none_iff

theorem filterMap_id_map_some_sublist {α : Type} (l : List (Option α)) :
    List.Sublist ((l.filterMap id).map some) l := by
  induction l with
  | nil => simp
  | cons a l ih =>
    cases a with
    | none => simpa using ih.cons none
    | some b => simpa using ih.cons₂ (some b)

/-- C5: the metadata fan-out over a page returns exactly the candidates
whose resolution produced a record — `Absent` (`null`) outcomes are dropped
silently — in the candidates' original relative order, with no gaps or null
placeholders (the sublist clause: the returned records appear, wrapped in
`some`, as an order-preserving selection of the per-item outcome list). -/
theorem resolvePage_order_spec (getItem : Json → String → Option MetaLite)
    (type : String) (pageItems : List Json) :
    resolvePage getItem type pageItems =
      pageItems.filterMap (fun item => getItem item type) ∧
    List.Sublist ((resolvePage getItem type pageItems).map some)
      (pageItems.map (fun item => getItem item type)) := by
  constructor
  · unfold resolvePage
    rw [List.filterMap_map]
    rfl
  · unfold resolvePage
    exact filterMap_id_map_some_sublist _

theorem mapGet_mapDelete_self (m : UserCache) (key : String) :
    mapGet (mapDelete m key) key = none := by
  induction m with
  | nil => rfl
  | cons kv rest ih =>
    by_cases h : kv.1 = key
    · simpa [mapDelete, h] using ih
    · simpa [mapDelete, mapGet, h] using ih

theorem mapGet_mapDelete_ne (m : UserCache) (key k : String) (h : k ≠ key) :
    mapGet (mapDelete m key) k = mapGet m k := by
  induction m with
  | nil => rfl
  | cons kv rest ih =>
    obtain ⟨k1, e1⟩ := kv
    simp only [mapDelete]
    by_cases hk : k1 = key
    · subst hk
      rw [if_pos rfl, ih]
      simp only [mapGet]
      rw [if_neg (fun hc : k1 = k => h hc.symm)]
    · rw [if_neg hk]
      simp only [mapGet]
      by_cases hk2 : k1 = k
      · rw [if_pos hk2, if_pos hk2]
      · rw [if_neg hk2, if_neg hk2, ih]

/-- C2: a cache read of an entry created at `t0`, performed at `now` with
`now - t0 ≥ CACHE_TTL` (10 minutes), yields nothing and deletes the entry
from the partition (leaving every other key untouched), so an expired entry
is never served; a read with `now - t0 < CACHE_TTL` yields the stored
candidate sequence and leaves the partition unchanged. -/
theorem cacheRead_ttl_spec (cache : UserCache) (key : String) (now t0 : Int)
    (items : List Json) (h : mapGet cache key = some ⟨t0, items⟩) :
    (now - t0 ≥ CACHE_TTL →
      cacheRead cache key now = ([], mapDelete cache key) ∧
      mapGet (cacheRead cache key now).2 key = none ∧
      ∀ k, k ≠ key → mapGet (cacheRead cache key now).2 k = mapGet cache k) ∧
    (now - t0 < CACHE_TTL → cacheRead cache key now = (items, cache)) := by
  constructor
  · intro hexp
    have hlt : ¬(now - t0 < CACHE_TTL) := by omega
    have hread : cacheRead cache key now = ([], mapDelete cache key) := by
      unfold cacheRead
      rw [h]
      simp [hlt]
    refine ⟨hread, ?_, ?_⟩
    · rw [hread]
      exact mapGet_mapDelete_self cache key
    · intro k hk
      rw [hread]
      exact mapGet_mapDelete_ne cache key k hk
  · intro hfresh
    unfold cacheRead
    rw [h]
    simp [hfresh]

/-- C2 witness: an entry created at time 0 read at exactly the TTL boundary
(600000 ms) is evicted; read just inside the window it is served intact. -/
theorem cacheRead_ttl_spec_witness :
    cacheRead [("movie:q", ⟨0, [Json.str "x"]⟩)] "movie:q" 600000 =
      ([], mapDelete [("movie:q", ⟨0, [Json.str "x"]⟩)] "movie:q") ∧
    cacheRead [("movie:q", ⟨0, [Json.str "x"]⟩)] "movie:q" 599999 =
      ([Json.str "x"], [("movie:q", ⟨0, [Json.str "x"]⟩)]) :=
  ⟨((cacheRead_ttl_spec [("movie:q", ⟨0, [Json.str "x"]⟩)] "movie:q" 600000 0
      [Json.str "x"] rfl).1 (by decide)).1,
   (cacheRead_ttl_spec [("movie:q", ⟨0, [Json.str "x"]⟩)] "movie:q" 599999 0
      [Json.str "x"] rfl).2 (by decide)⟩


theorem cacheRead_fresh (cache : UserCache) (key : String) (now t0 : Int)
    (items : List Json) (h : mapGet cache key = some ⟨t0, items⟩)
    (hf : now - t0 < CACHE_TTL) : cacheRead cache key now = (items, cache) := by
  unfold cacheRead
  rw [h]
  simp [hf]

theorem cacheRead_missing (cache : UserCache) (key : String) (now : Int)
    (h : mapGet cache key = none) : cacheRead cache key now = ([], cache) := by
  unfold cacheRead
  rw [h]

theorem cacheRead_snd_cases (cache : UserCache) (key : String) (now : Int) :
    (cacheRead cache key now).2 = cache ∨
    (cacheRead cache key now).2 = mapDelete cache key := by
  unfold cacheRead
  cases h : mapGet cache key with
  | none => exact Or.inl rfl
  | some cached =>
    by_cases hf : now - cached.timestamp < CACHE_TTL
    · simp [hf]
    · simp [hf]

theorem catalogHandler_passthrough (apiKeys : List String)
    (callModel : String → String → String → GenResult)
    (getItem : Json → String → Option MetaLite)
    (now putNow : Int) (cache : UserCache) (type s : String) (skipExtra : Option Int)
    (hs : s ≠ "")
    (hnosuffix : jsIncludes s ".json" = false)
    (hf1 : ¬(wantsMoviesFor (jsToLower s) = true ∧ wantsSeriesFor (jsToLower s) = false ∧
      type = "series"))
    (hf2 : ¬(wantsSeriesFor (jsToLower s) = true ∧ wantsMoviesFor (jsToLower s) = false ∧
      type = "movie")) :
    catalogHandler apiKeys callModel getItem now putNow cache type (some s) skipExtra =
      .ok (catalogPipeline apiKeys callModel getItem now putNow cache type s
        (skipExtra.getD 0)) := by
  have h1 : optTruthy (some s) = true := by
    simp [optTruthy, hs]
  have hc1 : (wantsMoviesFor (jsToLower s) && !wantsSeriesFor (jsToLower s) &&
      (type == "series")) = false := by
    by_contra hc
    rw [Bool.not_eq_false] at hc
    simp only [Bool.and_eq_true, Bool.not_eq_true', beq_iff_eq] at hc
    exact hf1 ⟨hc.1.1, hc.1.2, hc.2⟩
  have hc2 : (wantsSeriesFor (jsToLower s) && !wantsMoviesFor (jsToLower s) &&
      (type == "movie")) = false := by
    by_contra hc
    rw [Bool.not_eq_false] at hc
    simp only [Bool.and_eq_true, Bool.not_eq_true', beq_iff_eq] at hc
    exact hf2 ⟨hc.1.1, hc.1.2, hc.2⟩
  simp only [catalogHandler, h1, Option.getD_some, hnosuffix, Bool.false_eq_true,
    if_false, hc1, hc2]
  simp

theorem regenerate_shape (apiKeys : List String)
    (callModel : String → String → String → GenResult)
    (itemLabel cleanQuery cacheKey : String) (putNow : Int) (cache1 : UserCache) :
    regenerate apiKeys callModel itemLabel cleanQuery cacheKey putNow cache1 = none ∨
    ∃ suggestions : List Json, suggestions ≠ [] ∧
      regenerate apiKeys callModel itemLabel cleanQuery cacheKey putNow cache1 =
        some (suggestions, mapSet cache1 cacheKey ⟨putNow, suggestions⟩) := by
  unfold regenerate
  split
  · exact Or.inl rfl
  · split
    · split
      · exact Or.inl rfl
      · rename_i suggestions harr hlen
        exact Or.inr ⟨suggestions, by simpa [List.length_eq_zero] using hlen, rfl⟩
    · exact Or.inl rfl

theorem catalogPipeline_hit (apiKeys : List String)
    (callModel : String → String → String → GenResult)
    (getItem : Json → String → Option MetaLite)
    (now putNow : Int) (cache : UserCache) (type cleanQuery : String) (skip : Int)
    (t0 : Int) (items : List Json)
    (hhit : mapGet cache (cacheKeyOf type (jsToLower cleanQuery)) = some ⟨t0, items⟩)
    (hfresh : now - t0 < CACHE_TTL)
    (hne : items ≠ []) :
    catalogPipeline apiKeys callModel getItem now putNow cache type cleanQuery skip =
      if skip ≥ (items.length : Int) then (⟨[]⟩, cache)
      else if (resolvePage getItem type (jsSlice items skip (skip + PAGE_SIZE))).length = 0
        then (⟨[]⟩, cache)
        else (⟨resolvePage getItem type (jsSlice items skip (skip + PAGE_SIZE))⟩, cache) := by
  have hrd : cacheRead cache (cacheKeyOf type (jsToLower cleanQuery)) now = (items, cache) :=
    cacheRead_fresh cache _ now t0 items hhit hfresh
  have hlen : ¬(items.length = 0) := by
    simpa [List.length_eq_zero] using hne
  simp only [catalogPipeline, hrd, hlen, if_false]

theorem catalogPipeline_missRegenNone (apiKeys : List String)
    (callModel : String → String → String → GenResult)
    (getItem : Json → String → Option MetaLite)
    (now putNow : Int) (cache : UserCache) (type cleanQuery : String) (skip : Int)
    (hmiss : mapGet cache (cacheKeyOf type (jsToLower cleanQuery)) = none)
    (hregen : regenerate apiKeys callModel (if type = "movie" then "movies" else "TV shows")
      cleanQuery (cacheKeyOf type (jsToLower cleanQuery)) putNow cache = none) :
    catalogPipeline apiKeys callModel getItem now putNow cache type cleanQuery skip =
      (⟨[]⟩, cache) := by
  have hrd : cacheRead cache (cacheKeyOf type (jsToLower cleanQuery)) now = ([], cache) :=
    cacheRead_missing cache _ now hmiss
  simp only [catalogPipeline, hrd, List.length_nil, if_true, hregen]

theorem take_drop_window {α : Type} (xs : List α) (s : Nat) :
    (xs.take (min (s + 20) xs.length)).drop (min s xs.length) = (xs.drop s).take 20 := by
  rcases le_or_lt s xs.length with hle | hlt
  · rw [min_eq_left hle, List.drop_take]
    rw [List.take_eq_take]
    simp only [List.length_drop]
    omega
  · have h1 : min s xs.length = xs.length := min_eq_right (le_of_lt hlt)
    have h2 : min (s + 20) xs.length = xs.length := min_eq_right (by omega)
    rw [h1, h2, List.take_length, List.drop_length,
      List.drop_eq_nil_of_le (le_of_lt hlt), List.take_nil]

theorem jsSlice_nonneg {α : Type} (xs : List α) (skip : Int) (h0 : 0 ≤ skip) :
    jsSlice xs skip (skip + PAGE_SIZE) = (xs.drop skip.toNat).take 20 := by
  have hs : ¬ skip < 0 := by omega
  have he : ¬ skip + PAGE_SIZE < 0 := by
    unfold PAGE_SIZE
    omega
  simp only [jsSlice, if_neg hs, if_neg he]
  have h1 : (min skip (xs.length : Int)).toNat = min skip.toNat xs.length := by omega
  have h2 : (min (skip + PAGE_SIZE) (xs.length : Int)).toNat =
      min (skip.toNat + 20) xs.length := by
    unfold PAGE_SIZE
    omega
  rw [h1, h2, take_drop_window]

/-- C3: with a fresh cached candidate list of length `L`, a catalog request
with `skip ≥ L` returns `{ metas: [] }` without error and without touching
the cache, while a request with `0 ≤ skip < L` hands exactly the
sub-sequence `[skip, skip + 20)` of the list — `min 20 (L - skip)`
candidates — to the metadata fan-out, whose (possibly empty) output is the
response. -/
theorem catalog_pagination_spec (apiKeys : List String)
    (callModel : String → String → String → GenResult)
    (getItem : Json → String → Option MetaLite)
    (now putNow t0 : Int) (cache : UserCache) (type s : String) (skip : Int)
    (items : List Json)
    (hs : s ≠ "")
    (hnosuffix : jsIncludes s ".json" = false)
    (hf1 : ¬(wantsMoviesFor (jsToLower s) = true ∧ wantsSeriesFor (jsToLower s) = false ∧
      type = "series"))
    (hf2 : ¬(wantsSeriesFor (jsToLower s) = true ∧ wantsMoviesFor (jsToLower s) = false ∧
      type = "movie"))
    (hhit : mapGet cache (cacheKeyOf type (jsToLower s)) = some ⟨t0, items⟩)
    (hfresh : now - t0 < CACHE_TTL)
    (hne : items ≠ []) :
    (skip ≥ (items.length : Int) →
      catalogHandler apiKeys callModel getItem now putNow cache type (some s) (some skip) =
        .ok (⟨[]⟩, cache)) ∧
    (0 ≤ skip → skip < (items.length : Int) →
      jsSlice items skip (skip + PAGE_SIZE) = (items.drop skip.toNat).take 20 ∧
      ((items.drop skip.toNat).take 20).length = min 20 (items.length - skip.toNat) ∧
      catalogHandler apiKeys callModel getItem now putNow cache type (some s) (some skip) =
        .ok (⟨resolvePage getItem type ((items.drop skip.toNat).take 20)⟩, cache)) := by
  have hpass := catalogHandler_passthrough apiKeys callModel getItem now putNow cache
    type s (some skip) hs hnosuffix hf1 hf2
  simp only [Option.getD_some] at hpass
  have hred := catalogPipeline_hit apiKeys callModel getItem now putNow cache type s skip
    t0 items hhit hfresh hne
  constructor
  · intro hskip
    rw [hpass, hred, if_pos hskip]
  · intro h0 hlt
    have hslice := jsSlice_nonneg items skip h0
    refine ⟨hslice, by simp [List.length_take, List.length_drop], ?_⟩
    rw [hpass, hred, if_neg (not_le.mpr hlt), hslice]
    by_cases hm : (resolvePage getItem type ((items.drop skip.toNat).take 20)).length = 0
    · rw [if_pos hm, List.length_eq_zero.mp hm]
    · rw [if_neg hm]

/-- C3 witness: a two-candidate cached list at skip 1 hands exactly the
second candidate to resolution; the same request at skip 5 yields
`{ metas: [] }`. -/
theorem catalog_pagination_spec_witness :
    catalogHandler [] (fun _ _ _ => GenResult.err "e") (fun _ _ => none) 1 1
      [("movie:q", ⟨0, [Json.str "a", Json.str "b"]⟩)] "movie" (some "q") (some 1) =
      .ok (⟨[]⟩, [("movie:q", ⟨0, [Json.str "a", Json.str "b"]⟩)]) ∧
    catalogHandler [] (fun _ _ _ => GenResult.err "e") (fun _ _ => none) 1 1
      [("movie:q", ⟨0, [Json.str "a", Json.str "b"]⟩)] "movie" (some "q") (some 5) =
      .ok (⟨[]⟩, [("movie:q", ⟨0, [Json.str "a", Json.str "b"]⟩)]) := by
  have h := catalog_pagination_spec [] (fun _ _ _ => GenResult.err "e") (fun _ _ => none)
    1 1 0 [("movie:q", ⟨0, [Json.str "a", Json.str "b"]⟩)] "movie" "q" 1
    [Json.str "a", Json.str "b"] (by decide) (by decide) (by decide) (by decide) rfl
    (by decide) (List.cons_ne_nil _ _)
  have h5 := catalog_pagination_spec [] (fun _ _ _ => GenResult.err "e") (fun _ _ => none)
    1 1 0 [("movie:q", ⟨0, [Json.str "a", Json.str "b"]⟩)] "movie" "q" 5
    [Json.str "a", Json.str "b"] (by decide) (by decide) (by decide) (by decide) rfl
    (by decide) (List.cons_ne_nil _ _)
  exact ⟨((h.2 (by decide) (by decide)).2.2).trans rfl, (h5.1 (by decide)).trans rfl⟩

theorem regenerate_none_of_gen_none (apiKeys : List String)
    (callModel : String → String → String → GenResult)
    (itemLabel cleanQuery cacheKey : String) (putNow : Int) (cache1 : UserCache)
    (h : generateWithRetry apiKeys callModel (buildPrompt itemLabel cleanQuery) = none) :
    regenerate apiKeys callModel itemLabel cleanQuery cacheKey putNow cache1 = none := by
  unfold regenerate
  rw [h]

theorem regenerate_none_of_bad_parse (apiKeys : List String)
    (callModel : String → String → String → GenResult)
    (itemLabel cleanQuery cacheKey : String) (putNow : Int) (cache1 : UserCache)
    (text : String)
    (htext : generateWithRetry apiKeys callModel (buildPrompt itemLabel cleanQuery) =
      some text)
    (hbad : isNonEmptyArr (parseGeminiResponse text) = false) :
    regenerate apiKeys callModel itemLabel cleanQuery cacheKey putNow cache1 = none := by
  unfold regenerate
  split
  · rfl
  · rename_i text2 hgen2
    rw [htext] at hgen2
    injection hgen2 with h2
    subst h2
    split
    · rename_i suggestions harr
      cases suggestions with
      | nil => rfl
      | cons a rest =>
        rw [harr] at hbad
        simp [isNonEmptyArr] at hbad
    · rfl

/-- C4: on a cache miss (no entry for the requested key), the catalog
handler leaves the cache partition unchanged and answers `{ metas: [] }`
both when the Suggestion Generator is exhausted (`null`) and when the
generated text does not parse to a non-empty array; nothing is written, so
an identical later request generates again. -/
theorem catalog_cacheMiss_noWrite (apiKeys : List String)
    (callModel : String → String → String → GenResult)
    (getItem : Json → String → Option MetaLite)
    (now putNow : Int) (cache : UserCache) (type s : String) (skipExtra : Option Int)
    (hs : s ≠ "")
    (hnosuffix : jsIncludes s ".json" = false)
    (hf1 : ¬(wantsMoviesFor (jsToLower s) = true ∧ wantsSeriesFor (jsToLower s) = false ∧
      type = "series"))
    (hf2 : ¬(wantsSeriesFor (jsToLower s) = true ∧ wantsMoviesFor (jsToLower s) = false ∧
      type = "movie"))
    (hmiss : mapGet cache (cacheKeyOf type (jsToLower s)) = none) :
    (generateWithRetry apiKeys callModel
        (buildPrompt (if type = "movie" then "movies" else "TV shows") s) = none →
      catalogHandler apiKeys callModel getItem now putNow cache type (some s) skipExtra =
        .ok (⟨[]⟩, cache)) ∧
    (∀ text, generateWithRetry apiKeys callModel
        (buildPrompt (if type = "movie" then "movies" else "TV shows") s) = some text →
      isNonEmptyArr (parseGeminiResponse text) = false →
      catalogHandler apiKeys callModel getItem now putNow cache type (some s) skipExtra =
        .ok (⟨[]⟩, cache)) := by
  have hpass := catalogHandler_passthrough apiKeys callModel getItem now putNow cache
    type s skipExtra hs hnosuffix hf1 hf2
  constructor
  · intro hgen
    rw [hpass, catalogPipeline_missRegenNone apiKeys callModel getItem now putNow cache
      type s _ hmiss (regenerate_none_of_gen_none _ _ _ _ _ _ _ hgen)]
  · intro text htext hbad
    rw [hpass, catalogPipeline_missRegenNone apiKeys callModel getItem now putNow cache
      type s _ hmiss (regenerate_none_of_bad_parse _ _ _ _ _ _ _ text htext hbad)]

/-- C4 witness: with an empty cache, a tenant whose every generation call
fails gets `{ metas: [] }` and the cache stays empty; likewise when the one
configured credential returns unparsable text. -/
theorem catalog_cacheMiss_noWrite_witness :
    catalogHandler [] (fun _ _ _ => GenResult.err "boom") (fun _ _ => none) 1 2 []
      "movie" (some "q") none = .ok (⟨[]⟩, []) ∧
    catalogHandler ["k"] (fun _ _ _ => GenResult.ok "not json") (fun _ _ => none) 1 2 []
      "movie" (some "q") none = .ok (⟨[]⟩, []) :=
  ⟨(catalog_cacheMiss_noWrite [] (fun _ _ _ => GenResult.err "boom") (fun _ _ => none)
      1 2 [] "movie" "q" none (by decide) (by decide) (by decide) (by decide) rfl).1 rfl,
   (catalog_cacheMiss_noWrite ["k"] (fun _ _ _ => GenResult.ok "not json") (fun _ _ => none)
      1 2 [] "movie" "q" none (by decide) (by decide) (by decide) (by decide) rfl).2
      "not json" rfl rfl⟩

/-- C6: a query whose lower-cased (suffix-stripped) form contains a movie
keyword and no series keyword makes a series-media-type request return
`{ metas: [] }` with the cache untouched and without consulting any
provider (the generation and resolution collaborators are arbitrary), and
symmetrically for series-only keywords on a movie request; when the two
keyword classifications agree (neither matches, or both match) the request
proceeds to the normal cache/generate/paginate pipeline for either media
type. -/
theorem intentFilter_shortCircuit_spec (apiKeys : List String)
    (callModel : String → String → String → GenResult)
    (getItem : Json → String → Option MetaLite)
    (now putNow : Int) (cache : UserCache) (type s : String) (skipExtra : Option Int)
    (hs : s ≠ "")
    (hnosuffix : jsIncludes s ".json" = false) :
    (wantsMoviesFor (jsToLower s) = true → wantsSeriesFor (jsToLower s) = false →
      type = "series" →
      catalogHandler apiKeys callModel getItem now putNow cache type (some s) skipExtra =
        .ok (⟨[]⟩, cache)) ∧
    (wantsSeriesFor (jsToLower s) = true → wantsMoviesFor (jsToLower s) = false →
      type = "movie" →
      catalogHandler apiKeys callModel getItem now putNow cache type (some s) skipExtra =
        .ok (⟨[]⟩, cache)) ∧
    (wantsMoviesFor (jsToLower s) = wantsSeriesFor (jsToLower s) →
      catalogHandler apiKeys callModel getItem now putNow cache type (some s) skipExtra =
        .ok (catalogPipeline apiKeys callModel getItem now putNow cache type s
          (skipExtra.getD 0))) := by
  have h1 : optTruthy (some s) = true := by
    simp [optTruthy, hs]
  refine ⟨?_, ?_, ?_⟩
  · intro hm hsr ht
    have hc1 : (wantsMoviesFor (jsToLower s) && !wantsSeriesFor (jsToLower s) &&
        (type == "series")) = true := by
      simp [hm, hsr, ht]
    simp only [catalogHandler, h1, Option.getD_some, hnosuffix, Bool.false_eq_true,
      if_false, hc1, if_true]
    simp
  · intro hsr hm ht
    have hc1 : (wantsMoviesFor (jsToLower s) && !wantsSeriesFor (jsToLower s) &&
        (type == "series")) = false := by
      simp [hm, hsr, ht]
    have hc2 : (wantsSeriesFor (jsToLower s) && !wantsMoviesFor (jsToLower s) &&
        (type == "movie")) = true := by
      simp [hm, hsr, ht]
    simp only [catalogHandler, h1, Option.getD_some, hnosuffix, Bool.false_eq_true,
      if_false, hc1, hc2, if_true]
    simp
  · intro heq
    refine catalogHandler_passthrough apiKeys callModel getItem now putNow cache type s
      skipExtra hs hnosuffix ?_ ?_
    · rintro ⟨hm, hsr, _⟩
      rw [heq] at hm
      rw [hm] at hsr
      cases hsr
    · rintro ⟨hsr, hm, _⟩
      rw [← heq] at hsr
      rw [hsr] at hm
      cases hm

/-- C6 witness: the query "best movie ever" short-circuits a series request;
the keyword-free query "q" proceeds to the pipeline on a movie request. -/
theorem intentFilter_shortCircuit_spec_witness :
    catalogHandler [] (fun _ _ _ => GenResult.err "x") (fun _ _ => none) 1 1
      [] "series" (some "best movie ever") none = .ok (⟨[]⟩, []) ∧
    catalogHandler [] (fun _ _ _ => GenResult.err "x") (fun _ _ => none) 1 1
      [] "movie" (some "q") none =
      .ok (catalogPipeline [] (fun _ _ _ => GenResult.err "x") (fun _ _ => none) 1 1
        [] "movie" "q" 0) :=
  ⟨(intentFilter_shortCircuit_spec [] (fun _ _ _ => GenResult.err "x") (fun _ _ => none)
      1 1 [] "series" "best movie ever" none (by decide) (by decide)).1
      (by decide) (by decide) rfl,
   (intentFilter_shortCircuit_spec [] (fun _ _ _ => GenResult.err "x") (fun _ _ => none)
      1 1 [] "movie" "q" none (by decide) (by decide)).2.2 (by decide)⟩

theorem mapGet_mem (m : UserCache) (k : String) (e : CacheEntry)
    (h : mapGet m k = some e) : (k, e) ∈ m := by
  induction m with
  | nil => cases h
  | cons kv rest ih =>
    obtain ⟨k1, e1⟩ := kv
    simp only [mapGet] at h
    by_cases hk : k1 = k
    · rw [if_pos hk] at h
      injection h with h2
      rw [← hk, ← h2]
      exact List.mem_cons_self _ _
    · rw [if_neg hk] at h
      exact List.mem_cons_of_mem _ (ih h)

theorem mem_mapDelete (m : UserCache) (key k : String) (e : CacheEntry)
    (h : (k, e) ∈ mapDelete m key) : (k, e) ∈ m := by
  induction m with
  | nil => cases h
  | cons kv rest ih =>
    obtain ⟨k1, e1⟩ := kv
    simp only [mapDelete] at h
    by_cases hk : k1 = key
    · rw [if_pos hk] at h
      exact List.mem_cons_of_mem _ (ih h)
    · rw [if_neg hk] at h
      rcases List.mem_cons.mp h with h2 | h2
      · rw [h2]
        exact List.mem_cons_self _ _
      · exact List.mem_cons_of_mem _ (ih h2)

theorem mem_mapSet (m : UserCache) (key : String) (v : CacheEntry) (k : String)
    (e : CacheEntry) (h : (k, e) ∈ mapSet m key v) :
    (k, e) ∈ m ∨ (k = key ∧ e = v) := by
  induction m with
  | nil =>
    simp only [mapSet, List.mem_singleton] at h
    injection h with h1 h2
    exact Or.inr ⟨h1, h2⟩
  | cons kv rest ih =>
    obtain ⟨k1, e1⟩ := kv
    simp only [mapSet] at h
    by_cases hk : k1 = key
    · rw [if_pos hk] at h
      rcases List.mem_cons.mp h with h2 | h2
      · injection h2 with h3 h4
        exact Or.inr ⟨h3, h4⟩
      · exact Or.inl (List.mem_cons_of_mem _ h2)
    · rw [if_neg hk] at h
      rcases List.mem_cons.mp h with h2 | h2
      · rw [h2]
        exact Or.inl (List.mem_cons_self _ _)
      · rcases ih h2 with h3 | h3
        · exact Or.inl (List.mem_cons_of_mem _ h3)
        · exact Or.inr h3

theorem catalogPipeline_cache_shape (apiKeys : List String)
    (callModel : String → String → String → GenResult)
    (getItem : Json → String → Option MetaLite)
    (now putNow : Int) (cache : UserCache) (type cleanQuery : String) (skip : Int) :
    (catalogPipeline apiKeys callModel getItem now putNow cache type cleanQuery skip).2 =
        cache ∨
    (catalogPipeline apiKeys callModel getItem now putNow cache type cleanQuery skip).2 =
        mapDelete cache (cacheKeyOf type (jsToLower cleanQuery)) ∨
    ∃ suggestions : List Json, suggestions ≠ [] ∧
      (catalogPipeline apiKeys callModel getItem now putNow cache type cleanQuery skip).2 =
        mapSet (cacheRead cache (cacheKeyOf type (jsToLower cleanQuery)) now).2
          (cacheKeyOf type (jsToLower cleanQuery)) ⟨putNow, suggestions⟩ := by
  rcases hc : cacheRead cache (cacheKeyOf type (jsToLower cleanQuery)) now with ⟨rdItems, rdCache⟩
  have hrd : rdCache = cache ∨
      rdCache = mapDelete cache (cacheKeyOf type (jsToLower cleanQuery)) := by
    have h := cacheRead_snd_cases cache (cacheKeyOf type (jsToLower cleanQuery)) now
    rw [hc] at h
    exact h
  simp only [catalogPipeline, hc]
  by_cases hempty : rdItems.length = 0
  · rw [if_pos hempty]
    rcases regenerate_shape apiKeys callModel (if type = "movie" then "movies" else "TV shows")
      cleanQuery (cacheKeyOf type (jsToLower cleanQuery)) putNow rdCache with hre | ⟨sugs, hsne, hre⟩
    · rw [hre]
      rcases hrd with h | h
      · exact Or.inl h
      · exact Or.inr (Or.inl h)
    · rw [hre]
      refine Or.inr (Or.inr ⟨sugs, hsne, ?_⟩)
      split
      · rename_i heq
        cases heq
      · rename_i list2 cache2 heq
        injection heq with heq2
        injection heq2 with hl hc2
        rw [← hc2]
        split
        · rfl
        · split
          · rfl
          · rfl
  · rw [if_neg hempty]
    have hsnd : ((if skip ≥ (rdItems.length : Int) then ((⟨[]⟩ : CatalogResp), rdCache)
        else if (resolvePage getItem type (jsSlice rdItems skip (skip + PAGE_SIZE))).length = 0
          then (⟨[]⟩, rdCache)
          else (⟨resolvePage getItem type (jsSlice rdItems skip (skip + PAGE_SIZE))⟩, rdCache))).2 =
        rdCache := by
      split
      · rfl
      · split
        · rfl
        · rfl
    rw [hsnd]
    rcases hrd with h | h
    · exact Or.inl h
    · exact Or.inr (Or.inl h)

theorem catalogHandler_ok_cache_shape (apiKeys : List String)
    (callModel : String → String → String → GenResult)
    (getItem : Json → String → Option MetaLite)
    (now putNow : Int) (cache : UserCache) (type : String) (search : Option String)
    (skipExtra : Option Int) (resp : CatalogResp) (cache2 : UserCache)
    (hEq : catalogHandler apiKeys callModel getItem now putNow cache type search skipExtra =
      .ok (resp, cache2)) :
    cache2 = cache ∨
    ∃ cq : String, cache2 =
      (catalogPipeline apiKeys callModel getItem now putNow cache type cq
        (skipExtra.getD 0)).2 := by
  simp only [catalogHandler] at hEq
  split_ifs at hEq
  all_goals first
    | exact Except.noConfusion hEq
    | (injection hEq with hp; injection hp with hr hc2; exact Or.inl hc2.symm)
    | (injection hEq with hp; exact Or.inr ⟨_, (congrArg Prod.snd hp).symm⟩)

/-- C9: every entry the catalog handler ever writes into a tenant partition
has a non-empty items list, so the all-non-empty invariant is preserved by
every request; consequently, on a fresh cache hit the cached list is
non-empty, the regeneration branch for an empty cached list is unreachable,
and the pipeline's outcome does not depend on the suggestion-generation
collaborator or credentials at all. -/
theorem cache_nonEmpty_invariant :
    (∀ (apiKeys : List String) (callModel : String → String → String → GenResult)
      (getItem : Json → String → Option MetaLite) (now putNow : Int) (cache : UserCache)
      (type : String) (search : Option String) (skipExtra : Option Int)
      (resp : CatalogResp) (cache2 : UserCache),
      (∀ k e, (k, e) ∈ cache → e.items ≠ []) →
      catalogHandler apiKeys callModel getItem now putNow cache type search skipExtra =
        .ok (resp, cache2) →
      ∀ k e, (k, e) ∈ cache2 → e.items ≠ []) ∧
    (∀ (apiKeys1 apiKeys2 : List String)
      (callModel1 callModel2 : String → String → String → GenResult)
      (getItem : Json → String → Option MetaLite) (now putNow : Int) (cache : UserCache)
      (type cleanQuery : String) (skip t0 : Int) (items : List Json),
      (∀ k e, (k, e) ∈ cache → e.items ≠ []) →
      mapGet cache (cacheKeyOf type (jsToLower cleanQuery)) = some ⟨t0, items⟩ →
      now - t0 < CACHE_TTL →
      catalogPipeline apiKeys1 callModel1 getItem now putNow cache type cleanQuery skip =
        catalogPipeline apiKeys2 callModel2 getItem now putNow cache type cleanQuery skip) := by
  constructor
  · intro apiKeys callModel getItem now putNow cache type search skipExtra resp cache2
      hinv hEq k e hmem
    rcases catalogHandler_ok_cache_shape apiKeys callModel getItem now putNow cache type
      search skipExtra resp cache2 hEq with hcc | ⟨cq, hcc⟩
    · exact hinv k e (hcc ▸ hmem)
    · rcases catalogPipeline_cache_shape apiKeys callModel getItem now putNow cache type
        cq (skipExtra.getD 0) with hs1 | hs1 | ⟨sugs, hsne, hs1⟩
      · rw [hcc, hs1] at hmem
        exact hinv k e hmem
      · rw [hcc, hs1] at hmem
        exact hinv k e (mem_mapDelete _ _ _ _ hmem)
      · rw [hcc, hs1] at hmem
        rcases mem_mapSet _ _ _ _ _ hmem with hm2 | ⟨hk, he⟩
        · rcases cacheRead_snd_cases cache (cacheKeyOf type (jsToLower cq)) now with hcr | hcr
          · rw [hcr] at hm2
            exact hinv k e hm2
          · rw [hcr] at hm2
            exact hinv k e (mem_mapDelete _ _ _ _ hm2)
        · rw [he]
          exact hsne
  · intro apiKeys1 apiKeys2 callModel1 callModel2 getItem now putNow cache type cleanQuery
      skip t0 items hinv hget hfresh
    have hne : items ≠ [] := hinv _ _ (mapGet_mem _ _ _ hget)
    rw [catalogPipeline_hit apiKeys1 callModel1 getItem now putNow cache type cleanQuery
        skip t0 items hget hfresh hne,
      catalogPipeline_hit apiKeys2 callModel2 getItem now putNow cache type cleanQuery
        skip t0 items hget hfresh hne]

/-- C9 witness: on a one-entry partition holding a non-empty list, the
pipeline result is literally identical for a generator that always fails
and one that would return fresh JSON — generation is unreachable. -/
theorem cache_nonEmpty_invariant_witness :
    catalogPipeline [] (fun _ _ _ => GenResult.err "x") (fun _ _ => none) 1 1
      [("movie:q", ⟨0, [Json.str "a"]⟩)] "movie" "q" 0 =
    catalogPipeline ["k"] (fun _ _ _ => GenResult.ok "[1]") (fun _ _ => none) 1 1
      [("movie:q", ⟨0, [Json.str "a"]⟩)] "movie" "q" 0 :=
  cache_nonEmpty_invariant.2 [] ["k"] (fun _ _ _ => GenResult.err "x")
    (fun _ _ _ => GenResult.ok "[1]") (fun _ _ => none) 1 1
    [("movie:q", ⟨0, [Json.str "a"]⟩)] "movie" "q" 0 0 [Json.str "a"]
    (fun k e hmem => by
      simp only [List.mem_singleton] at hmem
      injection hmem with h1 h2
      rw [h2]
      exact List.cons_ne_nil _ _)
    rfl (by decide)

/-- C7 counterexample: with a metadata provider whose lookup throws, detail
resolution for the well-formed identifier `tt0111161` returns
`{ meta: null }` — it does not surface the provider fault as a failure. -/
theorem metaHandler_fault_degrades_counterexample :
    metaHandler (fun _ => Except.error "network error") (fun _ => Except.error "fault")
      (fun _ => Except.error "fault") "movie" "tt0111161" = .ok none ∧
    metaHandler (fun _ => Except.error "network error") (fun _ => Except.error "fault")
      (fun _ => Except.error "fault") "movie" "tt0111161" ≠ .error "network error" :=
  ⟨rfl, by
    intro h
    rw [show metaHandler (fun _ => Except.error "network error")
      (fun _ => Except.error "fault") (fun _ => Except.error "fault") "movie" "tt0111161" =
      .ok none from rfl] at h
    exact Except.noConfusion h⟩

/-- C7 amended: detail resolution returns Absent (`{ meta: null }`) for
every identifier not starting with `tt`; for a well-formed identifier a
provider fault during lookup (in `find` or in the per-type info call) is
caught inside `getTmdbMeta` and degrades to Absent as well — the handler
never surfaces a failure. -/
theorem metaHandler_amended_spec
    (find : String → Except String FindResults)
    (movieInfo tvInfo : Int → Except String InfoItem)
    (type idArg : String) :
    (jsStartsWith idArg "tt" = false →
      metaHandler find movieInfo tvInfo type idArg = .ok none) ∧
    (∀ e, find idArg = .error e →
      metaHandler find movieInfo tvInfo type idArg = .ok none) ∧
    (∀ e findRes, find idArg = .ok findRes → type = "movie" →
      findRes.movie_results ≠ [] →
      movieInfo (findRes.movie_results.headD 0) = .error e →
      metaHandler find movieInfo tvInfo type idArg = .ok none) ∧
    (∃ v, metaHandler find movieInfo tvInfo type idArg = .ok v) := by
  refine ⟨?_, ?_, ?_, ?_⟩
  · intro h
    simp [metaHandler, h]
  · intro e he
    by_cases hid : jsStartsWith idArg "tt"
    · have hm : getTmdbMeta find movieInfo tvInfo type idArg = none := by
        unfold getTmdbMeta
        rw [he]
      simp [metaHandler, hid, hm]
    · simp [metaHandler, hid]
  · intro e findRes hfind htype hne hinfo
    subst htype
    by_cases hid : jsStartsWith idArg "tt"
    · have hpos : findRes.movie_results.length > 0 := List.length_pos.mpr hne
      have hm : getTmdbMeta find movieInfo tvInfo "movie" idArg = none := by
        simp only [getTmdbMeta, hfind]
        rw [if_pos (by simp [hpos]), hinfo]
      simp [metaHandler, hid, hm]
    · simp [metaHandler, hid]
  · by_cases hid : jsStartsWith idArg "tt"
    · exact ⟨getTmdbMeta find movieInfo tvInfo type idArg, by simp [metaHandler, hid]⟩
    · exact ⟨none, by simp [metaHandler, hid]⟩

/-- C7 witness: a `find` call that throws on a well-formed identifier still
yields `{ meta: null }` on a series request. -/
theorem metaHandler_amended_spec_witness :
    metaHandler (fun _ => Except.error "timeout") (fun _ => Except.error "x")
      (fun _ => Except.error "x") "series" "tt123" = .ok none :=
  (metaHandler_amended_spec (fun _ => Except.error "timeout") (fun _ => Except.error "x")
    (fun _ => Except.error "x") "series" "tt123").2.1 "timeout" rfl

theorem newline_not_mem_replaceAllChars (fuel : Nat) :
    ∀ cs : List Char, cs.length < fuel → '\n' ∉ replaceAllChars ['\n'] [] fuel cs := by
  induction fuel with
  | zero =>
    intro cs h
    omega
  | succ f ih =>
    intro cs h
    cases cs with
    | nil => simp [replaceAllChars, List.isPrefixOf]
    | cons c rest =>
      by_cases hc : c = '\n'
      · subst hc
        have hp : (List.isPrefixOf ['\n'] ('\n' :: rest) ∧ (['\n'] : List Char) ≠ []) := by
          refine ⟨?_, by simp⟩
          simp [List.isPrefixOf]
        simp only [replaceAllChars, if_pos hp, List.nil_append, List.length_cons,
          List.length_nil, List.drop_succ_cons, List.drop_zero]
        exact ih rest (by simp at h; omega)
      · have hp : ¬(List.isPrefixOf ['\n'] (c :: rest) ∧ (['\n'] : List Char) ≠ []) := by
          rintro ⟨h1, _⟩
          simp [List.isPrefixOf] at h1
          exact hc h1.symm
        simp only [replaceAllChars, if_neg hp]
        intro hmem
        rcases List.mem_cons.mp hmem with h2 | h2
        · exact hc h2.symm
        · exact ih rest (by simp at h; omega) h2

theorem mem_jsTrim (s : String) (c : Char) (h : c ∈ (jsTrim s).data) : c ∈ s.data := by
  have h1 : c ∈ ((s.data.dropWhile isJsSpace).reverse.dropWhile isJsSpace).reverse := h
  rw [List.mem_reverse] at h1
  have h2 : c ∈ (s.data.dropWhile isJsSpace).reverse :=
    List.Sublist.mem h1 (List.dropWhile_sublist _)
  rw [List.mem_reverse] at h2
  exact List.Sublist.mem h2 (List.dropWhile_sublist _)

theorem head?_dropWhile_false (p : Char → Bool) (l : List Char) (c : Char)
    (h : (l.dropWhile p).head? = some c) : p c = false := by
  induction l with
  | nil => cases h
  | cons a rest ih =>
    rw [List.dropWhile_cons] at h
    by_cases hp : p a = true
    · rw [if_pos hp] at h
      exact ih h
    · rw [if_neg hp] at h
      injection h with h2
      rw [← h2]
      simpa using hp

theorem head?_of_prefix {α : Type} (l₁ l₂ : List α) (c : α) (h : List.IsPrefix l₁ l₂)
    (hc : l₁.head? = some c) : l₂.head? = some c := by
  obtain ⟨t, rfl⟩ := h
  cases l₁ with
  | nil => cases hc
  | cons a r => simpa using hc

theorem jsTrim_head (s : String) (c : Char) (h : (jsTrim s).data.head? = some c) :
    isJsSpace c = false := by
  have hsuf : List.IsSuffix ((s.data.dropWhile isJsSpace).reverse.dropWhile isJsSpace)
      (s.data.dropWhile isJsSpace).reverse := List.dropWhile_suffix _
  have hpre := hsuf.reverse
  rw [List.reverse_reverse] at hpre
  have h2 : (s.data.dropWhile isJsSpace).head? = some c := head?_of_prefix _ _ _ hpre h
  exact head?_dropWhile_false _ _ _ h2

theorem jsTrim_last (s : String) (c : Char)
    (h : (jsTrim s).data.reverse.head? = some c) : isJsSpace c = false := by
  have heq : (jsTrim s).data.reverse =
      (s.data.dropWhile isJsSpace).reverse.dropWhile isJsSpace := by
    show (((s.data.dropWhile isJsSpace).reverse.dropWhile isJsSpace).reverse).reverse = _
    rw [List.reverse_reverse]
  rw [heq] at h
  exact head?_dropWhile_false _ _ _ h

/-- C8 counterexample: on the provider text "\x7b\x7d" (an empty JSON
object) the Response Parser returns the decoded object, which is not an
(even empty) sequence of CandidateItem — successful decoding passes the
value through unchecked. -/
theorem parseGeminiResponse_nonArray_counterexample :
    parseGeminiResponse "\x7b\x7d" = Json.obj [] ∧
    Json.isArr (parseGeminiResponse "\x7b\x7d") = false := ⟨rfl, rfl⟩

/-- C8 amended: the Response Parser strips code-fence markers and embedded
newlines and trims surrounding whitespace before structural decoding (the
decoded string contains no newline and neither starts nor ends with
whitespace), returns the decoded JSON value as-is on success — the value
need not be an array of candidate items; callers must check — and returns
the empty sequence, never an error, when structural decoding fails. -/
theorem parseGeminiResponse_amended_spec (text : String) :
    (∀ v, jsonParse (cleanedText text) = some v → parseGeminiResponse text = v) ∧
    (jsonParse (cleanedText text) = none → parseGeminiResponse text = Json.arr []) ∧
    '\n' ∉ (cleanedText text).data ∧
    (∀ c, (cleanedText text).data.head? = some c → isJsSpace c = false) ∧
    (∀ c, (cleanedText text).data.reverse.head? = some c → isJsSpace c = false) := by
  refine ⟨?_, ?_, ?_, ?_, ?_⟩
  · intro v h
    unfold parseGeminiResponse
    rw [h]
  · intro h
    unfold parseGeminiResponse
    rw [h]
  · intro hmem
    have h2 := mem_jsTrim _ _ hmem
    exact newline_not_mem_replaceAllChars _ _ (by omega) h2
  · intro c hc
    exact jsTrim_head _ _ hc
  · intro c hc
    exact jsTrim_last _ _ hc

/-- C8 witness: a code-fenced, newline-wrapped JSON array decodes to its
candidate list. -/
theorem parseGeminiResponse_amended_spec_witness :
    parseGeminiResponse "```json\n[\"Interstellar\"]\n```" =
      Json.arr [Json.str "Interstellar"] :=
  (parseGeminiResponse_amended_spec "```json\n[\"Interstellar\"]\n```").1
    (Json.arr [Json.str "Interstellar"]) rfl

/-- C10 counterexample: the year-filtered movie search is empty, the
unfiltered retry returns a hit, yet the resolver still answers Absent
because the hit carries no IMDb id — so Absent does not imply that the
unfiltered search returned nothing. -/
theorem getTmdbItem_absent_counterexample :
    getTmdbItem
      (fun _ y => match y with
        | some _ => .ok (some [])
        | none => .ok (some [⟨42, some "The Matrix", none, none, none,
            some "1999-03-31", none⟩]))
      (fun _ => .ok none) (fun _ => .ok none) (fun _ => .ok none)
      "The Matrix" (some "1999") "movie" = none ∧
    (fun (_ : String) (y : Option String) =>
      match y with
      | some _ => (.ok (some []) : Except String (Option (List TmdbSearchItem)))
      | none => .ok (some [⟨42, some "The Matrix", none, none, none,
          some "1999-03-31", none⟩]))
      "The Matrix" none =
      .ok (some [⟨42, some "The Matrix", none, none, none, some "1999-03-31", none⟩]) :=
  ⟨rfl, rfl⟩

/-- C10 amended: for a movie candidate whose year-filtered search returns
no results, the resolver retries exactly once without the year filter and
continues with that retry's first hit; the search stage yields Absent when
the retry also returns nothing, though Absent can still arise afterwards
from a missing IMDb id or a provider fault. A series lookup uses the
year-free TV search from the start — its outcome never depends on the
movie-search collaborator, and an empty TV search yields Absent with no
retry. -/
theorem getTmdbItem_retry_amended_spec
    (searchMovie : String → Option String → Except String (Option (List TmdbSearchItem)))
    (searchTv : String → Except String (Option (List TmdbSearchItem)))
    (movieExternalIds tvExternalIds : Int → Except String (Option String))
    (title : String) (year : Option String) :
    (∀ first, searchMovie title
        (match year with
          | some y => if y = "" then none else some (y.take 4)
          | none => none) = .ok first →
      resEmpty first = true →
      (∀ second, searchMovie title none = .ok second → resEmpty second = true →
        getTmdbItem searchMovie searchTv movieExternalIds tvExternalIds title year
          "movie" = none) ∧
      (∀ second, searchMovie title none = .ok second → resEmpty second = false →
        getTmdbItem searchMovie searchTv movieExternalIds tvExternalIds title year
          "movie" =
          (match movieFromSearch movieExternalIds year
              ((resultsOf second).headD defaultSearchItem) with
            | .ok v => v
            | .error _ => none))) ∧
    (∀ searchMovie2 : String → Option String →
        Except String (Option (List TmdbSearchItem)),
      getTmdbItem searchMovie searchTv movieExternalIds tvExternalIds title year
        "series" =
      getTmdbItem searchMovie2 searchTv movieExternalIds tvExternalIds title year
        "series") ∧
    (∀ res, searchTv title = .ok res → resEmpty res = true →
      getTmdbItem searchMovie searchTv movieExternalIds tvExternalIds title year
        "series" = none) := by
  refine ⟨?_, ?_, ?_⟩
  · intro first h1 he1
    constructor
    · intro second h2 he2
      simp only [getTmdbItem, if_pos rfl, h1, he1, if_true, h2, he2]
    · intro second h2 he2
      simp only [getTmdbItem, if_pos rfl, h1, he1, if_true, h2, he2, Bool.false_eq_true,
        if_false]
  · intro searchMovie2
    rfl
  · intro res h1 he1
    simp only [getTmdbItem, h1, he1, if_true]
    rw [if_neg (by decide)]

/-- C10 witness: year-filtered search empty, unfiltered retry hits, IMDb id
present — the resolver returns the record built from the retry's first hit. -/
theorem getTmdbItem_retry_amended_spec_witness :
    getTmdbItem
      (fun _ y => match y with
        | some _ => .ok (some [])
        | none => .ok (some [⟨42, some "The Matrix", none, none, none,
            some "1999-03-31", none⟩]))
      (fun _ => .ok none) (fun _ => .ok (some "tt0133093")) (fun _ => .ok none)
      "The Matrix" (some "1999") "movie" =
      some ⟨"tt0133093", "movie", some "The Matrix", none, none, some "1999", 42⟩ :=
  (((getTmdbItem_retry_amended_spec
      (fun _ y => match y with
        | some _ => .ok (some [])
        | none => .ok (some [⟨42, some "The Matrix", none, none, none,
            some "1999-03-31", none⟩]))
      (fun _ => .ok none) (fun _ => .ok (some "tt0133093")) (fun _ => .ok none)
      "The Matrix" (some "1999")).1 (some []) rfl rfl).2
    (some [⟨42, some "The Matrix", none, none, none, some "1999-03-31", none⟩])
    rfl rfl).trans (by decide)
